import Mathlib

/-!
A shallow embedding of the `ql` log-analysis pipeline (log2json.py and the
layout part of json2html.py), together with proofs of the behavioural
properties stated in the specification.

Modelling conventions:
* Python values that flow through rule fields (cursor, layer, subclass name)
  are modelled by the plain-data type `PyVal`; a rule field that may be a
  callable is `CVal` (a callable returning `Option.none` models the callable
  raising an exception).
* External libraries are abstracted at their call boundary: the regex engine
  used by `extract_cursor` is a function `String → String → Option String`
  (pattern, line ↦ group 0 of the first match) together with a predicate
  `Char → Bool` for its Unicode-aware `\w` character class, the timestamp
  parser `parse_logcat_timestamp` is a function `String → Int`, and the
  ripgrep adapter is a function `String → List RgMatch` (pattern ↦ matches).
* `sys.exit(1)` and an uncaught Python exception are both modelled by
  `Except.error`; a normal return is `Except.ok`.
* Python's stable `list.sort(key=k)` is modelled by `List.insertionSort`
  with the relation `k a ≤ k b` (insertion sort is stable, and stable
  sorting is unique, so this is extensionally the same function).
* Python floats in the layout code are modelled exactly by `ℚ`.
-/

/-- A match record produced by `run_rg_json`: the fields of the dict built at
log2json.py lines 102-106 that the rest of the pipeline reads. -/
structure RgMatch where
  line_number : Nat
  line_text : String
deriving Repr, DecidableEq

/-- A plain (non-callable) Python value as it occurs in rule fields. -/
inductive PyVal where
  | none
  | int (n : Int)
  | str (s : String)
  | bool (b : Bool)
deriving Repr, DecidableEq

/-- Python truthiness of a `PyVal` (the `elif cursor_cfg:` test). -/
def pyTruthy : PyVal → Bool
  | PyVal.none => false
  | PyVal.int n => decide (n ≠ 0)
  | PyVal.str s => decide (s ≠ "")
  | PyVal.bool b => b

/-- Python `str()` of a `PyVal`. -/
def pyStr : PyVal → String
  | PyVal.none => "None"
  | PyVal.int n => toString n
  | PyVal.str s => s
  | PyVal.bool b => if b then "True" else "False"

/-- Read a non-empty all-digit character list as a natural number. -/
def digitsToNat : List Char → Option Nat
  | [] => Option.none
  | cs =>
      if cs.all Char.isDigit then
        some (cs.foldl (fun acc c => 10 * acc + (c.toNat - 48)) 0)
      else Option.none

/-- Python `int(str)` over ASCII: strip whitespace, allow one sign, then
require at least one digit; `Option.none` models `ValueError`. -/
def pyStrToInt (s : String) : Option Int :=
  match (s.data.dropWhile Char.isWhitespace).reverse.dropWhile
      Char.isWhitespace |>.reverse with
  | '-' :: rest => (digitsToNat rest).map (fun n => -(n : Int))
  | '+' :: rest => (digitsToNat rest).map (fun n => (n : Int))
  | t => (digitsToNat t).map (fun n => (n : Int))

/-- Python `int()` coercion of a `PyVal`; `Option.none` models `int()`
raising (`TypeError` on `None`, `ValueError` on a non-numeric string). -/
def pyInt : PyVal → Option Int
  | PyVal.int n => some n
  | PyVal.str s => pyStrToInt s
  | PyVal.bool b => some (if b then 1 else 0)
  | PyVal.none => Option.none

/-- A rule-field value: either a plain value or a callable
`(line, match) → value`.  A callable returning `Option.none` models the
callable raising an exception. -/
inductive CVal where
  | lit (v : PyVal)
  | fn (f : String → RgMatch → Option PyVal)

/-- log2json.py `resolve_callable` (lines 182-205): call a callable value,
falling back to `default` if it raises; return a non-callable unchanged. -/
def resolve_callable (value : CVal) (line : String) (m : RgMatch)
    (default : PyVal) : PyVal :=
  match value with
  | CVal.fn f =>
      match f line m with
      | some v => v
      | Option.none => default
  | CVal.lit v => v

/-- Python `str.strip()`: drop whitespace from both ends. -/
def pyStrip (s : String) : String :=
  String.mk (((s.data.dropWhile Char.isWhitespace).reverse.dropWhile
    Char.isWhitespace).reverse)

/-- The character class kept verbatim by
`re.sub(r'[^\w\-_.]', '_', cursor)` (log2json.py line 136): the regex
engine's word class `\w` — which in Python is Unicode-aware, so it is
abstracted here as a predicate `w` rather than fixed to ASCII — together
with hyphen, underscore and dot. -/
def wordKeep (w : Char → Bool) (c : Char) : Bool :=
  w c || c = '-' || c = '_' || c = '.'

/-- The substitution `re.sub(r'[^\w\-_.]', '_', cursor)` at
log2json.py line 136, parameterized by the engine's word class `w`:
characters outside `[\w\-_.]` become underscores, all others (including
any non-ASCII characters the engine's `\w` admits) survive. -/
def sanitizeSub (w : Char → Bool) (s : String) : String :=
  String.mk (s.data.map (fun c => if wordKeep w c then c else '_'))

/-- Python string slicing `s[:n]` (by characters). -/
def pySlice (s : String) (n : Nat) : String :=
  String.mk (s.data.take n)

/-- The ASCII character class `[A-Za-z0-9_.-]` as written in the
SPECIFICATION's sanitization regex.  This is a spec-side definition (the
spec's words), deliberately distinct from the program-side `wordKeep`:
the program's Unicode `\w` admits characters outside this class. -/
def specKeepChar (c : Char) : Bool :=
  c.isAlpha || c.isDigit || c = '_' || c = '-' || c = '.'

/-- The sanitized-cursor language of the specification:
`^[A-Za-z0-9_.-]{0,50}$`. -/
def isSanitizedCursor (s : String) : Bool :=
  s.data.length ≤ 50 && s.data.all specKeepChar

/-- log2json.py `extract_cursor` (lines 120-138).  The regex engine behind
`re.search` is abstracted as `search : pattern → line → Option group0`,
and its `\w` character class as `w : Char → Bool`. -/
def extract_cursor (search : String → String → Option String)
    (w : Char → Bool) (line : String) (cursor_pattern : String)
    (default : String) : String :=
  if cursor_pattern ≠ "" then
    match search cursor_pattern line with
    | some g => pySlice (sanitizeSub w (pyStrip g)) 50
    | Option.none => default
  else default

/-- A rule dict as read by `process_config` (log2json.py lines 240-247).
`cursor_pfx` models the source field `cursor_prefix` (renamed here). -/
structure Rule where
  pattern : String
  cursor : CVal
  cursor_pattern : String
  cursor_pfx : String
  layer : CVal

/-- A subclass dict: `subclassname` (possibly computed) and its rules. -/
structure SubConfig where
  subclassname : CVal
  rules : List Rule

/-- A loaded config: `classname` and `subclasses`
(log2json.py lines 229-230). -/
structure Config where
  classname : String
  subclasses : List SubConfig

/-- The point dict appended at log2json.py lines 277-283. -/
structure Point where
  cursor : String
  msg : String
  line : Nat
  timestamp : Int
  layer : Int
deriving Repr, DecidableEq

/-- The mutable state of one `process_config` run: the `seen_lines` set and
the `subclass_points_map` insertion-ordered dict (log2json.py lines 232-233).
Buckets are keyed by the resolved subclass name, a `PyVal`. -/
structure PCState where
  seen : List Nat
  buckets : List (PyVal × List Point)
deriving DecidableEq

/-- Append `x` to the bucket of key `k`, creating the bucket at the end if
the key is new — exactly `defaultdict(list)[k].append(x)` on an
insertion-ordered dict. -/
def bucketAppend {κ α : Type} [DecidableEq κ] :
    List (κ × List α) → κ → α → List (κ × List α)
  | [], k, x => [(k, [x])]
  | (k0, xs) :: rest, k, x =>
      if k0 = k then (k0, xs ++ [x]) :: rest
      else (k0, xs) :: bucketAppend rest k x

/-- Group a list by a key function via repeated `bucketAppend`: the model of
building a `defaultdict(list)` by iterating a list. -/
def groupByKey {κ α : Type} [DecidableEq κ] (key : α → κ) (l : List α) :
    List (κ × List α) :=
  l.foldl (fun acc x => bucketAppend acc (key x) x) []

/-- First-occurrence association-list lookup (Python dict lookup). -/
def alookup {κ α : Type} [DecidableEq κ] (k : κ) :
    List (κ × List α) → Option (List α)
  | [] => Option.none
  | (k0, xs) :: rest => if k0 = k then some xs else alookup k rest

/-- The external collaborators of `process_config`: the regex engine used
for cursor extraction (its `re.search` and its Unicode `\w` character
class) and the timestamp parser (`parse_logcat_timestamp` with a fixed
base year). -/
structure Env where
  search : String → String → Option String
  wordChar : Char → Bool
  parseTs : String → Int

/-- The resolved subclass name of a match (log2json.py line 261). -/
def resolvedSubclass (sub : CVal) (m : RgMatch) : PyVal :=
  resolve_callable sub m.line_text m (PyVal.str "Unnamed")

/-- The resolved cursor value of a match: the four-way branch at
log2json.py lines 264-272 (callable / truthy literal / cursor pattern /
line-number fallback). -/
def resolvedCursor (env : Env) (rule : Rule) (m : RgMatch) : PyVal :=
  match rule.cursor with
  | CVal.fn f =>
      resolve_callable (CVal.fn f) m.line_text m
        (PyVal.str ("L" ++ toString m.line_number))
  | CVal.lit v =>
      if pyTruthy v then v
      else if rule.cursor_pattern ≠ "" then
        let extracted := extract_cursor env.search env.wordChar m.line_text
          rule.cursor_pattern ""
        if extracted ≠ "" then PyVal.str (rule.cursor_pfx ++ extracted)
        else PyVal.str ("L" ++ toString m.line_number)
      else PyVal.str ("L" ++ toString m.line_number)

/-- The resolved layer value of a match (log2json.py line 275), before the
`int()` coercion. -/
def resolvedLayer (rule : Rule) (m : RgMatch) : PyVal :=
  resolve_callable rule.layer m.line_text m (PyVal.int 1)

/-- Build the point dict of log2json.py lines 277-283 for one match.
`Except.error` models the uncaught exception raised by `int(layer)` when the
resolved layer is not coercible to an integer. -/
def mkPoint (env : Env) (rule : Rule) (m : RgMatch) : Except String Point :=
  match pyInt (resolvedLayer rule m) with
  | Option.none => Except.error "invalid literal for int()"
  | some L =>
      Except.ok
        { cursor := pyStr (resolvedCursor env rule m)
          msg := m.line_text
          line := m.line_number
          timestamp := env.parseTs m.line_text
          layer := L }

/-- The body of the per-match loop of `process_config`
(log2json.py lines 251-283): skip an already-seen line, otherwise claim the
line, build the point and append it to its subclass bucket. -/
def processMatch (env : Env) (sub : CVal) (rule : Rule) (m : RgMatch)
    (st : PCState) : Except String PCState :=
  if m.line_number ∈ st.seen then Except.ok st
  else
    match mkPoint env rule m with
    | Except.error e => Except.error e
    | Except.ok p =>
        Except.ok
          { seen := m.line_number :: st.seen
            buckets := bucketAppend st.buckets (resolvedSubclass sub m) p }

/-- The per-rule loop body (log2json.py lines 239-283): an empty pattern
skips the rule; otherwise the adapter is queried and each match processed. -/
def processRule (env : Env) (rg : String → List RgMatch) (sub : CVal)
    (rule : Rule) (st : PCState) : Except String PCState :=
  if rule.pattern = "" then Except.ok st
  else (rg rule.pattern).foldlM (fun s m => processMatch env sub rule m s) st

/-- The per-subclass loop body (log2json.py lines 235-283). -/
def processSub (env : Env) (rg : String → List RgMatch) (sc : SubConfig)
    (st : PCState) : Except String PCState :=
  sc.rules.foldlM (fun s r => processRule env rg sc.subclassname r s) st

/-- The sort key of log2json.py line 292: compare points by `x['line']`. -/
def lineLE (a b : Point) : Prop :=
  a.line ≤ b.line

instance : DecidableRel lineLE := by
  intro a b
  unfold lineLE
  infer_instance

instance : IsTotal Point lineLE := by
  constructor
  intro a b
  exact le_total a.line b.line

instance : IsTrans Point lineLE := by
  constructor
  intro a b c hab hbc
  exact hab.trans hbc

/-- Python's stable sort of a point list by the key `x['line']`
(log2json.py line 292). -/
def sortByLine (ps : List Point) : List Point :=
  List.insertionSort lineLE ps

/-- The class dict returned by `process_config`
(log2json.py lines 286-299). -/
structure ClassData where
  classname : String
  subclasses : List (PyVal × List Point)
deriving DecidableEq

/-- log2json.py `process_config` (lines 208-299): run every rule of every
subclass over the adapter's matches, then sort each bucket by line number
and keep the non-empty buckets. -/
def process_config (env : Env) (rg : String → List RgMatch)
    (config : Config) : Except String ClassData :=
  match config.subclasses.foldlM (fun s sc => processSub env rg sc s)
      { seen := [], buckets := [] } with
  | Except.error e => Except.error e
  | Except.ok st =>
      Except.ok
        { classname := config.classname
          subclasses :=
            (st.buckets.map (fun b => (b.1, sortByLine b.2))).filter
              (fun b => !b.2.isEmpty) }

/-- All line numbers stored in a bucket list, in bucket order. -/
def bucketLines (buckets : List (PyVal × List Point)) : List Nat :=
  buckets.flatMap (fun b => b.2.map Point.line)

/-- All line numbers of the points emitted by one config evaluation. -/
def classLines (cd : ClassData) : List Nat :=
  bucketLines cd.subclasses

/-- The possible states of one config source on disk, as discriminated by
`load_config` (log2json.py lines 156-179): the file may be missing, have a
non-`.py` suffix, raise while executing, or load successfully. -/
inductive ConfigSource where
  | missing (path : String)
  | notPy (path : String)
  | execFails (path : String)
  | loaded (path : String) (c : Config)

/-- log2json.py `load_config` (lines 141-179).  Every failure branch of the
source calls `sys.exit(1)`, modelled here as `Except.error` (a fatal abort
of the whole run). -/
def load_config : ConfigSource → Except String Config
  | ConfigSource.missing p => Except.error ("Config file not found: " ++ p)
  | ConfigSource.notPy p =>
      Except.error ("Only .py config files are supported: " ++ p)
  | ConfigSource.execFails p => Except.error ("Failed to load config " ++ p)
  | ConfigSource.loaded _ c => Except.ok c

/-- The per-config loop of `main` (log2json.py lines 403-419): load each
config, process it, and keep its class data when it has subclasses.  A
failure of `load_config` or `process_config` aborts the whole fold. -/
def processAllConfigs (env : Env) (rg : String → List RgMatch)
    (srcs : List ConfigSource) : Except String (List ClassData) :=
  srcs.foldlM
    (fun acc src =>
      match load_config src with
      | Except.error e => Except.error e
      | Except.ok cfg =>
          match process_config env rg cfg with
          | Except.error e => Except.error e
          | Except.ok cd =>
              Except.ok (if cd.subclasses.isEmpty then acc else acc ++ [cd]))
    []

/-- One line of output of the external rg process, after the per-line JSON
parse of log2json.py lines 98-108: either a well-formed `match` event or
anything else (begin, end, summary, or malformed JSON), which is skipped. -/
inductive RgEvent where
  | matchEv (m : RgMatch)
  | otherEv
deriving Repr

/-- The outcome of invoking the rg subprocess (log2json.py lines 86-92):
the executable may be missing (`FileNotFoundError`), the process may
complete with some exit code and stdout, or another exception may occur. -/
inductive RgProcResult where
  | notFound
  | completed (exitCode : Nat) (stdout : List RgEvent)
  | otherError
deriving Repr

/-- The stdout parse loop of `run_rg_json` (log2json.py lines 94-110): keep
exactly the well-formed `match` events. -/
def parseRgEvents (out : List RgEvent) : List RgMatch :=
  out.filterMap (fun e =>
    match e with
    | RgEvent.matchEv m => some m
    | RgEvent.otherEv => Option.none)

/-- log2json.py `run_rg_json` (lines 74-117): a missing executable is fatal
(`sys.exit(1)`); a completed process has its stdout parsed with the exit
code never inspected; any other exception is caught with a warning and an
empty match list is returned. -/
def run_rg_json : RgProcResult → Except String (List RgMatch)
  | RgProcResult.notFound => Except.error "ripgrep not found"
  | RgProcResult.completed _ out => Except.ok (parseRgEvents out)
  | RgProcResult.otherError => Except.ok []

/-- The merged output document (log2json.py `merge_results`,
lines 302-324). -/
structure JResult where
  name : String
  all : List ClassData
deriving DecidableEq

/-- A collected `process_json` callback together with the path of the config
that supplied it (log2json.py line 410).  A hook returning `Option.none`
models the hook raising an exception. -/
abbrev Hook : Type := String × (JResult → Option JResult)

/-- The warning printed when a hook fails (log2json.py line 432). -/
def hookWarning (src : String) : String :=
  "process_json failed in " ++ src

/-- The post-processing loop of `main` (log2json.py lines 427-432), threading
the result and the warning log: a successful hook replaces the result; a
failing hook keeps the previous result and appends a warning. -/
def runHooks (hooks : List Hook) (st : JResult × List String) :
    JResult × List String :=
  hooks.foldl
    (fun acc h =>
      match h.2 acc.1 with
      | some r => (r, acc.2)
      | Option.none => (acc.1, acc.2 ++ [hookWarning h.1]))
    st

/-- The fields of the point dict built by `generate_html`
(json2html.py lines 92-104) that the layout steps read. -/
structure LPoint where
  timestamp_ms : Int
  category_index : Nat
  line : Nat
  cursor : String
  msg : String
  layer : Int
  subclassname : String
deriving Repr, DecidableEq

/-- The canonical tie-break order of json2html.py line 109:
`(timestamp_ms, category_index, line)` lexicographically. -/
def tieLE (a b : LPoint) : Prop :=
  a.timestamp_ms < b.timestamp_ms ∨
    (a.timestamp_ms = b.timestamp_ms ∧
      (a.category_index < b.category_index ∨
        (a.category_index = b.category_index ∧ a.line ≤ b.line)))

instance : DecidableRel tieLE := by
  intro a b
  unfold tieLE
  infer_instance

instance : IsTotal LPoint tieLE := by
  constructor
  intro a b
  rcases lt_trichotomy a.timestamp_ms b.timestamp_ms with h | h | h
  · exact Or.inl (Or.inl h)
  · rcases lt_trichotomy a.category_index b.category_index with h2 | h2 | h2
    · exact Or.inl (Or.inr ⟨h, Or.inl h2⟩)
    · rcases le_total a.line b.line with h3 | h3
      · exact Or.inl (Or.inr ⟨h, Or.inr ⟨h2, h3⟩⟩)
      · exact Or.inr (Or.inr ⟨h.symm, Or.inr ⟨h2.symm, h3⟩⟩)
    · exact Or.inr (Or.inr ⟨h.symm, Or.inl h2⟩)
  · exact Or.inr (Or.inl h)

instance : IsTrans LPoint tieLE := by
  constructor
  intro a b c hab hbc
  rcases hab with h1 | ⟨e1, h1⟩
  · rcases hbc with h2 | ⟨e2, _⟩
    · exact Or.inl (h1.trans h2)
    · exact Or.inl (e2 ▸ h1)
  · rcases hbc with h2 | ⟨e2, h2⟩
    · exact Or.inl (e1 ▸ h2)
    · refine Or.inr ⟨e1.trans e2, ?_⟩
      rcases h1 with h1 | ⟨f1, h1⟩
      · rcases h2 with h2 | ⟨f2, _⟩
        · exact Or.inl (h1.trans h2)
        · exact Or.inl (f2 ▸ h1)
      · rcases h2 with h2 | ⟨f2, h2⟩
        · exact Or.inl (f1 ▸ h2)
        · exact Or.inr ⟨f1.trans f2, h1.trans h2⟩

/-- The in-place sort `all_points.sort(key=lambda x: (x['timestamp_ms'],
x['category_index'], x['line']))` of json2html.py line 109. -/
def sortAllPoints (pts : List LPoint) : List LPoint :=
  List.insertionSort tieLE pts

/-- The grouping key of json2html.py line 114. -/
def gkey (p : LPoint) : Int × Nat :=
  (p.timestamp_ms, p.category_index)

/-- The `timestamp_category_groups` dict of json2html.py lines 112-114,
built from the sorted point list. -/
def layoutGroups (pts : List LPoint) : List ((Int × Nat) × List LPoint) :=
  groupByKey gkey (sortAllPoints pts)

/-- A point after display assignment: the original point plus the
`display_timestamp_ms` and `display_y` fields written at
json2html.py lines 128-134. -/
structure DPoint where
  point : LPoint
  display_timestamp_ms : ℚ
  display_y : Nat
deriving Repr, DecidableEq

/-- The display assignment of json2html.py lines 117-134 for one
`(timestamp_ms, category_index)` group: a group of `n > 1` points is spread
over a `0.9` ms window (`step = 0.9 / (n - 1)`, first offset `-0.45`);
a single point keeps its own `timestamp_ms`. -/
def assignDisplay (k : Int × Nat) (g : List LPoint) : List DPoint :=
  if 1 < g.length then
    ((List.range g.length).zip g).map
      (fun ip =>
        { point := ip.2
          display_timestamp_ms :=
            (k.1 : ℚ) + (-(9 / 10) / 2) +
              (ip.1 : ℚ) * ((9 / 10) / ((g.length : ℚ) - 1))
          display_y := ip.2.category_index })
  else
    g.map (fun p =>
      { point := p
        display_timestamp_ms := (p.timestamp_ms : ℚ)
        display_y := p.category_index })

/-- The fixed 20-entry layer colour palette of json2html.py lines 137-158. -/
def layer_color_palette : List String :=
  ["#667eea", "#28a745", "#ffc107", "#dc3545", "#17a2b8",
   "#fd7e14", "#6f42c1", "#20c997", "#e83e8c", "#007bff",
   "#6610f2", "#795548", "#607d8b", "#4caf50", "#ff5722",
   "#9c27b0", "#00bcd4", "#8bc34a", "#ff9800", "#3f51b5"]

/-- json2html.py `get_layer_color` (lines 160-162):
`palette[(layer - 1) % len(palette)]` (Python `%` on an `int` is Euclidean
remainder for a positive modulus, i.e. `Int.emod`). -/
def get_layer_color (layer : Int) : String :=
  layer_color_palette.getD ((layer - 1).emod 20).toNat ""

/-- The series-grouping key of json2html.py lines 168-173. -/
def skey (d : DPoint) : String × Int :=
  (d.point.subclassname, d.point.layer)

/-- Strict lexicographic comparison of character lists by code point, the
order Python uses to compare strings. -/
def strLtB : List Char → List Char → Bool
  | [], [] => false
  | [], _ :: _ => true
  | _ :: _, [] => false
  | c :: as, d :: bs =>
      if c = d then strLtB as bs else decide (c.toNat < d.toNat)

/-- Python `<` on strings: code-point lexicographic order. -/
def pyStrLT (a b : String) : Prop :=
  strLtB a.data b.data = true

/-- The Python tuple order on `(subclassname, layer)` keys used by
`sorted(subclass_layer_series.keys())` (json2html.py line 188). -/
def keyLE (a b : String × Int) : Prop :=
  pyStrLT a.1 b.1 ∨ (a.1 = b.1 ∧ a.2 ≤ b.2)

instance : DecidableRel keyLE := by
  intro a b
  unfold keyLE pyStrLT
  infer_instance

instance : IsTotal (String × Int) keyLE := by
  have inj : ∀ c d : Char, c.toNat = d.toNat → c = d := by
    intro c d h
    apply Char.ext
    apply UInt32.val_injective
    apply Fin.ext
    exact h
  have tri : ∀ a b : List Char,
      strLtB a b = true ∨ a = b ∨ strLtB b a = true := by
    intro a
    induction a with
    | nil =>
        intro b
        cases b with
        | nil => exact Or.inr (Or.inl rfl)
        | cons y ys => exact Or.inl (by simp [strLtB])
    | cons x xs ih =>
        intro b
        cases b with
        | nil => exact Or.inr (Or.inr (by simp [strLtB]))
        | cons y ys =>
            by_cases hxy : x = y
            · subst hxy
              rcases ih ys with h | h | h
              · exact Or.inl (by simp [strLtB, h])
              · exact Or.inr (Or.inl (by rw [h]))
              · exact Or.inr (Or.inr (by simp [strLtB, h]))
            · rcases Nat.lt_trichotomy x.toNat y.toNat with h | h | h
              · exact Or.inl (by simp [strLtB, hxy, h])
              · exact absurd (inj x y h) hxy
              · exact Or.inr (Or.inr
                  (by simp [strLtB, Ne.symm hxy, h]))
  constructor
  intro a b
  rcases tri a.1.data b.1.data with h | h | h
  · exact Or.inl (Or.inl h)
  · have he : a.1 = b.1 := String.ext h
    rcases le_total a.2 b.2 with h2 | h2
    · exact Or.inl (Or.inr ⟨he, h2⟩)
    · exact Or.inr (Or.inr ⟨he.symm, h2⟩)
  · exact Or.inr (Or.inl h)

instance : IsTrans (String × Int) keyLE := by
  have tr : ∀ a b c : List Char, strLtB a b = true → strLtB b c = true →
      strLtB a c = true := by
    intro a
    induction a with
    | nil =>
        intro b c h1 h2
        cases b with
        | nil => simp [strLtB] at h1
        | cons y ys =>
            cases c with
            | nil => simp [strLtB] at h2
            | cons z zs => simp [strLtB]
    | cons x xs ih =>
        intro b c h1 h2
        cases b with
        | nil => simp [strLtB] at h1
        | cons y ys =>
            cases c with
            | nil => simp [strLtB] at h2
            | cons z zs =>
                by_cases hxy : x = y
                · subst hxy
                  rw [strLtB, if_pos rfl] at h1
                  by_cases hyz : x = z
                  · subst hyz
                    rw [strLtB, if_pos rfl] at h2
                    rw [strLtB, if_pos rfl]
                    exact ih ys zs h1 h2
                  · rw [strLtB, if_neg hyz] at h2
                    rw [strLtB, if_neg hyz]
                    exact h2
                · rw [strLtB, if_neg hxy] at h1
                  have hlt1 : x.toNat < y.toNat := of_decide_eq_true h1
                  by_cases hyz : y = z
                  · subst hyz
                    rw [strLtB, if_neg hxy]
                    exact h1
                  · rw [strLtB, if_neg hyz] at h2
                    have hlt2 : y.toNat < z.toNat := of_decide_eq_true h2
                    have hlt : x.toNat < z.toNat := hlt1.trans hlt2
                    have hxz : x ≠ z := by
                      intro he
                      subst he
                      exact absurd hlt (lt_irrefl _)
                    rw [strLtB, if_neg hxz]
                    exact decide_eq_true hlt
  constructor
  intro a b c hab hbc
  rcases hab with h1 | ⟨e1, h1⟩
  · rcases hbc with h2 | ⟨e2, _⟩
    · exact Or.inl (tr _ _ _ h1 h2)
    · exact Or.inl (e2 ▸ h1)
  · rcases hbc with h2 | ⟨e2, h2⟩
    · exact Or.inl (e1 ▸ h2)
    · exact Or.inr ⟨e1.trans e2, h1.trans h2⟩

/-- The sorted series-key list of json2html.py line 188. -/
def seriesKeys (dpts : List DPoint) : List (String × Int) :=
  List.insertionSort keyLE ((groupByKey skey dpts).map Prod.fst)

/-- The series construction of json2html.py lines 168-210, reduced to the
fields with behavioural content: for every key in sorted order, the series
carries that key's point group and the palette colour of its layer. -/
def buildSeries (dpts : List DPoint) :
    List ((String × Int) × List DPoint × String) :=
  (seriesKeys dpts).map
    (fun k => (k, (alookup k (groupByKey skey dpts)).getD [],
      get_layer_color k.2))

/-- A concrete environment for witnesses: a regex engine that never
matches, an ASCII-only word class, and a timestamp parser that always
fails to parse (returns `0`). -/
def envW : Env :=
  { search := fun _ _ => Option.none
    wordChar := fun c => c.isAlpha || c.isDigit || c = '_'
    parseTs := fun _ => 0 }

/-- A concrete adapter for witnesses: every pattern matches line 1. -/
def rgW : String → List RgMatch :=
  fun _ => [{ line_number := 1, line_text := "x ERROR y" }]

/-- A rule whose cursor is the truthy literal `"a b"`, which contains a
space. -/
def ruleC1 : Rule :=
  { pattern := "ERROR"
    cursor := CVal.lit (PyVal.str "a b")
    cursor_pattern := ""
    cursor_pfx := ""
    layer := CVal.lit (PyVal.int 1) }

/-- A one-rule config using `ruleC1`. -/
def cfgC1 : Config :=
  { classname := "C"
    subclasses := [{ subclassname := CVal.lit (PyVal.str "S")
                     rules := [ruleC1] }] }

/-- The point `cfgC1` emits for line 1 of the witness adapter. -/
def pC1 : Point :=
  { cursor := "a b", msg := "x ERROR y", line := 1, timestamp := 0,
    layer := 1 }

/-- The class data `cfgC1` produces. -/
def cdC1 : ClassData :=
  { classname := "C", subclasses := [(PyVal.str "S", [pC1])] }

/-- The single line both rules of `cfgC2` match. -/
def mAB : RgMatch :=
  { line_number := 5, line_text := "AB line" }

/-- A concrete adapter on which patterns `A` and `B` both match line 5. -/
def rgC2 : String → List RgMatch :=
  fun p => if p = "A" then [mAB] else if p = "B" then [mAB] else []

/-- The first rule of `cfgC2` (cursor `CA`, layer 1). -/
def ruleA : Rule :=
  { pattern := "A"
    cursor := CVal.lit (PyVal.str "CA")
    cursor_pattern := ""
    cursor_pfx := ""
    layer := CVal.lit (PyVal.int 1) }

/-- The second rule of `cfgC2` (cursor `CB`, layer 2), declared after
`ruleA` and matching the same line. -/
def ruleB : Rule :=
  { pattern := "B"
    cursor := CVal.lit (PyVal.str "CB")
    cursor_pattern := ""
    cursor_pfx := ""
    layer := CVal.lit (PyVal.int 2) }

/-- A config with two rules that both match line 5. -/
def cfgC2 : Config :=
  { classname := "C2"
    subclasses := [{ subclassname := CVal.lit (PyVal.str "S")
                     rules := [ruleA, ruleB] }] }

/-- The single point `cfgC2` emits: line 5 claimed by `ruleA`. -/
def pA : Point :=
  { cursor := "CA", msg := "AB line", line := 5, timestamp := 0, layer := 1 }

/-- The class data `cfgC2` produces. -/
def cdC2 : ClassData :=
  { classname := "C2", subclasses := [(PyVal.str "S", [pA])] }

/-- A rule whose layer resolver succeeds but returns the non-coercible
string `"abc"`. -/
def ruleC5 : Rule :=
  { pattern := "E"
    cursor := CVal.lit PyVal.none
    cursor_pattern := ""
    cursor_pfx := ""
    layer := CVal.fn (fun _ _ => some (PyVal.str "abc")) }

/-- A one-rule config using `ruleC5`. -/
def cfgC5 : Config :=
  { classname := "C5"
    subclasses := [{ subclassname := CVal.lit (PyVal.str "S")
                     rules := [ruleC5] }] }

/-- A rule whose layer resolver raises. -/
def ruleC5b : Rule :=
  { pattern := "E"
    cursor := CVal.lit PyVal.none
    cursor_pattern := ""
    cursor_pfx := ""
    layer := CVal.fn (fun _ _ => Option.none) }

/-- A rule with a falsy literal cursor (the empty string) and no cursor
pattern. -/
def ruleC10 : Rule :=
  { pattern := "E"
    cursor := CVal.lit (PyVal.str "")
    cursor_pattern := ""
    cursor_pfx := ""
    layer := CVal.lit (PyVal.int 1) }

/-- A concrete match on line 7 for the `ruleC10` witness. -/
def mC10 : RgMatch :=
  { line_number := 7, line_text := "E line" }

/-- A concrete merged result for the hook witnesses. -/
def jrW : JResult :=
  { name := "n", all := [] }

/-- A hook that always raises. -/
def hookFail : Hook :=
  ("a.py", fun _ => Option.none)

/-- A hook that renames the result. -/
def hookOk : Hook :=
  ("b.py", fun r => some { name := r.name ++ "!", all := r.all })

/-- A concrete layout point (timestamp 5 ms, category 0, line 1). -/
def lp1 : LPoint :=
  { timestamp_ms := 5, category_index := 0, line := 1, cursor := "c1",
    msg := "", layer := 1, subclassname := "s" }

/-- A second layout point colliding with `lp1` (same ms, same category). -/
def lp2 : LPoint :=
  { timestamp_ms := 5, category_index := 0, line := 2, cursor := "c2",
    msg := "", layer := 1, subclassname := "s" }

/-- A third colliding layout point. -/
def lp3 : LPoint :=
  { timestamp_ms := 5, category_index := 0, line := 3, cursor := "c3",
    msg := "", layer := 1, subclassname := "t" }

/-- A concrete point list with a three-way collision, given unsorted. -/
def ptsC6 : List LPoint :=
  [lp3, lp1, lp2]

/-- A display point on `lp1`. -/
def dpS : DPoint :=
  { point := lp1, display_timestamp_ms := 5, display_y := 0 }

/-- A display point on `lp3` (subclass `t`). -/
def dpT : DPoint :=
  { point := lp3, display_timestamp_ms := 5, display_y := 0 }

/-- A concrete display-point list whose series keys arrive unsorted. -/
def dptsC9 : List DPoint :=
  [dpT, dpS]

/-- Looking a key up after a `bucketAppend` sees the appended element exactly
on its own key. -/
theorem alookup_bucketAppend {κ α : Type} [DecidableEq κ]
    (m : List (κ × List α)) (k : κ) (x : α) (q : κ) :
    (alookup q (bucketAppend m k x)).getD [] =
      if q = k then (alookup q m).getD [] ++ [x]
      else (alookup q m).getD [] := by
  induction m with
  | nil =>
      by_cases h : q = k
      · subst h
        simp [bucketAppend, alookup]
      · simp [bucketAppend, alookup, h, Ne.symm h]
  | cons b rest ih =>
      obtain ⟨k0, xs⟩ := b
      by_cases hk : k0 = k
      · subst hk
        by_cases hq : q = k0
        · subst hq
          simp [bucketAppend, alookup]
        · simp [bucketAppend, alookup, hq, Ne.symm hq]
      · by_cases hq : k0 = q
        · subst hq
          simp [bucketAppend, alookup, hk, Ne.symm hk]
        · simp [bucketAppend, alookup, hk, hq, ih]

/-- Folding `bucketAppend` over a list collects, for each key, exactly the
elements of that key in order. -/
theorem alookup_foldl_bucketAppend {κ α : Type} [DecidableEq κ]
    (key : α → κ) (l : List α) (acc : List (κ × List α)) (k : κ) :
    (alookup k (l.foldl (fun a x => bucketAppend a (key x) x) acc)).getD [] =
      (alookup k acc).getD [] ++ l.filter (fun x => decide (key x = k)) := by
  induction l generalizing acc with
  | nil => simp
  | cons x l ih =>
      rw [List.foldl_cons, ih, alookup_bucketAppend]
      by_cases h : key x = k
      · simp [h, List.filter_cons]
      · simp [h, List.filter_cons, Ne.symm h]

/-- The bucket of key `k` in `groupByKey key l` is the sublist of elements
of `l` whose key is `k`, in order. -/
theorem alookup_groupByKey {κ α : Type} [DecidableEq κ]
    (key : α → κ) (l : List α) (k : κ) :
    (alookup k (groupByKey key l)).getD [] =
      l.filter (fun x => decide (key x = k)) := by
  have h := alookup_foldl_bucketAppend key l [] k
  simpa [groupByKey, alookup] using h

/-- `bucketAppend` either reuses an existing key or appends a new one. -/
theorem keys_bucketAppend {κ α : Type} [DecidableEq κ]
    (m : List (κ × List α)) (k : κ) (x : α) :
    (bucketAppend m k x).map Prod.fst =
      if k ∈ m.map Prod.fst then m.map Prod.fst
      else m.map Prod.fst ++ [k] := by
  induction m with
  | nil => simp [bucketAppend]
  | cons b rest ih =>
      obtain ⟨k0, xs⟩ := b
      by_cases hk : k0 = k
      · subst hk
        simp [bucketAppend]
      · simp only [bucketAppend, if_neg hk, List.map_cons, ih]
        by_cases hm : k ∈ List.map Prod.fst rest <;>
          simp [hm, Ne.symm hk]

/-- The key list of a bucket fold stays duplicate-free. -/
theorem nodup_keys_foldl_bucketAppend {κ α : Type} [DecidableEq κ]
    (key : α → κ) (l : List α) (acc : List (κ × List α))
    (h : (acc.map Prod.fst).Nodup) :
    (((l.foldl (fun a x => bucketAppend a (key x) x) acc)).map
      Prod.fst).Nodup := by
  induction l generalizing acc with
  | nil => simpa
  | cons x l ih =>
      rw [List.foldl_cons]
      refine ih _ ?_
      rw [keys_bucketAppend]
      by_cases hm : key x ∈ acc.map Prod.fst
      · simpa [hm]
      · rw [if_neg hm]
        exact ((List.perm_append_singleton _ _).nodup_iff).mpr
          (List.nodup_cons.mpr ⟨hm, h⟩)

/-- The key list of `groupByKey` is duplicate-free. -/
theorem nodup_keys_groupByKey {κ α : Type} [DecidableEq κ]
    (key : α → κ) (l : List α) :
    ((groupByKey key l).map Prod.fst).Nodup :=
  nodup_keys_foldl_bucketAppend key l [] (by simp)

/-- On a duplicate-free association list, membership determines lookup. -/
theorem alookup_eq_of_mem {κ α : Type} [DecidableEq κ]
    (m : List (κ × List α)) (k : κ) (g : List α)
    (hn : (m.map Prod.fst).Nodup) (hm : (k, g) ∈ m) :
    alookup k m = some g := by
  induction m with
  | nil => cases hm
  | cons b rest ih =>
      obtain ⟨k0, xs⟩ := b
      rcases List.mem_cons.mp hm with h | h
      · injection h with h1 h2
        subst h1
        subst h2
        simp [alookup]
      · have hk0 : k0 ≠ k := by
          intro he
          subst he
          exact (List.nodup_cons.mp hn).1
            (List.mem_map.mpr ⟨(k0, g), h, rfl⟩)
        simp [alookup, hk0]
        exact ih (List.nodup_cons.mp hn).2 h

/-- Every bucket of `groupByKey key l` is the filter of `l` on its key. -/
theorem mem_groupByKey_eq_filter {κ α : Type} [DecidableEq κ]
    (key : α → κ) (l : List α) (k : κ) (g : List α)
    (h : (k, g) ∈ groupByKey key l) :
    g = l.filter (fun x => decide (key x = k)) := by
  have h1 := alookup_eq_of_mem _ k g (nodup_keys_groupByKey key l) h
  have h2 := alookup_groupByKey key l k
  rw [h1] at h2
  simpa using h2

/-- An invariant preserved by every successful step of an `Except` fold is
preserved by the whole fold. -/
theorem foldlM_except_inv {σ α ε : Type} (P : σ → Prop)
    (f : σ → α → Except ε σ)
    (hf : ∀ s a s2, P s → f s a = Except.ok s2 → P s2) :
    ∀ (l : List α) (s s2 : σ), P s → l.foldlM f s = Except.ok s2 → P s2 := by
  intro l
  induction l with
  | nil =>
      intro s s2 hP h
      simp only [List.foldlM_nil] at h
      cases h
      exact hP
  | cons a l ih =>
      intro s s2 hP h
      rw [List.foldlM_cons] at h
      cases hfa : f s a with
      | error e =>
          rw [hfa] at h
          cases h
      | ok s1 =>
          rw [hfa] at h
          exact ih s1 s2 (hf s a s1 hP hfa) h

/-- Appending a point to a bucket list adds exactly its line number to the
collected line numbers, up to permutation. -/
theorem bucketLines_bucketAppend (m : List (PyVal × List Point)) (k : PyVal)
    (p : Point) :
    List.Perm (bucketLines (bucketAppend m k p)) (p.line :: bucketLines m) := by
  induction m with
  | nil => simp [bucketAppend, bucketLines]
  | cons b rest ih =>
      obtain ⟨k0, xs⟩ := b
      by_cases hk : k0 = k
      · subst hk
        have h1 : bucketAppend ((k0, xs) :: rest) k0 p =
            (k0, xs ++ [p]) :: rest := by
          simp [bucketAppend]
        rw [h1]
        have h2 : bucketLines ((k0, xs ++ [p]) :: rest) =
            List.map Point.line xs ++ (p.line :: bucketLines rest) := by
          simp [bucketLines]
        have h3 : bucketLines ((k0, xs) :: rest) =
            List.map Point.line xs ++ bucketLines rest := by
          simp [bucketLines]
        rw [h2, h3]
        exact List.perm_middle
      · have h1 : bucketAppend ((k0, xs) :: rest) k p =
            (k0, xs) :: bucketAppend rest k p := by
          simp [bucketAppend, hk]
        rw [h1]
        have h2 : bucketLines ((k0, xs) :: bucketAppend rest k p) =
            List.map Point.line xs ++ bucketLines (bucketAppend rest k p) := by
          simp [bucketLines]
        have h3 : bucketLines ((k0, xs) :: rest) =
            List.map Point.line xs ++ bucketLines rest := by
          simp [bucketLines]
        rw [h2, h3]
        exact (ih.append_left _).trans List.perm_middle

/-- A successfully built point carries the line number of its match. -/
theorem mkPoint_line (env : Env) (rule : Rule) (m : RgMatch) (p : Point)
    (h : mkPoint env rule m = Except.ok p) : p.line = m.line_number := by
  unfold mkPoint at h
  cases hL : pyInt (resolvedLayer rule m) with
  | none => rw [hL] at h; cases h
  | some L => rw [hL] at h; cases h; rfl

/-- The dedup invariant of one `process_config` run: the emitted line
numbers are duplicate-free and all recorded in `seen_lines`. -/
def PCInv (st : PCState) : Prop :=
  (bucketLines st.buckets).Nodup ∧
    ∀ n ∈ bucketLines st.buckets, n ∈ st.seen

/-- One match step preserves the dedup invariant. -/
theorem processMatch_inv (env : Env) (sub : CVal) (rule : Rule)
    (m : RgMatch) (st st2 : PCState) (hP : PCInv st)
    (h : processMatch env sub rule m st = Except.ok st2) : PCInv st2 := by
  unfold processMatch at h
  by_cases hseen : m.line_number ∈ st.seen
  · rw [if_pos hseen] at h
    cases h
    exact hP
  · rw [if_neg hseen] at h
    cases hmk : mkPoint env rule m with
    | error e => rw [hmk] at h; cases h
    | ok p =>
        rw [hmk] at h
        cases h
        have hline := mkPoint_line env rule m p hmk
        have hperm := bucketLines_bucketAppend st.buckets
          (resolvedSubclass sub m) p
        constructor
        · refine hperm.nodup_iff.mpr (List.nodup_cons.mpr ⟨?_, hP.1⟩)
          intro hmem
          exact hseen (hline ▸ hP.2 p.line hmem)
        · intro n hn
          rcases List.mem_cons.mp (hperm.mem_iff.mp hn) with h | h
          · exact List.mem_cons.mpr (Or.inl (h.trans hline))
          · exact List.mem_cons.mpr (Or.inr (hP.2 n h))

/-- One rule step preserves the dedup invariant. -/
theorem processRule_inv (env : Env) (rg : String → List RgMatch)
    (sub : CVal) (rule : Rule) (st st2 : PCState) (hP : PCInv st)
    (h : processRule env rg sub rule st = Except.ok st2) : PCInv st2 := by
  unfold processRule at h
  by_cases hpat : rule.pattern = ""
  · rw [if_pos hpat] at h
    cases h
    exact hP
  · rw [if_neg hpat] at h
    exact foldlM_except_inv PCInv _
      (fun s a s2 hs ha => processMatch_inv env sub rule a s s2 hs ha)
      (rg rule.pattern) st st2 hP h

/-- One subclass step preserves the dedup invariant. -/
theorem processSub_inv (env : Env) (rg : String → List RgMatch)
    (sc : SubConfig) (st st2 : PCState) (hP : PCInv st)
    (h : processSub env rg sc st = Except.ok st2) : PCInv st2 :=
  foldlM_except_inv PCInv _
    (fun s a s2 hs ha => processRule_inv env rg sc.subclassname a s s2 hs ha)
    sc.rules st st2 hP h

/-- Sorting every bucket permutes the collected line numbers. -/
theorem bucketLines_map_sort (bs : List (PyVal × List Point)) :
    List.Perm (bucketLines (bs.map (fun b => (b.1, sortByLine b.2))))
      (bucketLines bs) := by
  induction bs with
  | nil => simp [bucketLines]
  | cons b rest ih =>
      simp only [List.map_cons, bucketLines, List.flatMap_cons]
      exact ((List.perm_insertionSort lineLE b.2).map Point.line).append ih

/-- Dropping buckets keeps the collected line numbers a sublist. -/
theorem bucketLines_filter (pred : PyVal × List Point → Bool)
    (bs : List (PyVal × List Point)) :
    (bucketLines (bs.filter pred)).Sublist (bucketLines bs) := by
  induction bs with
  | nil => simp [bucketLines]
  | cons b rest ih =>
      by_cases hb : pred b
      · have h1 : bucketLines (List.filter pred (b :: rest)) =
            List.map Point.line b.2 ++ bucketLines (List.filter pred rest) := by
          simp [bucketLines, List.filter_cons, hb]
        have h2 : bucketLines (b :: rest) =
            List.map Point.line b.2 ++ bucketLines rest := by
          simp [bucketLines]
        rw [h1, h2]
        exact ih.append_left (List.map Point.line b.2)
      · have h1 : bucketLines (List.filter pred (b :: rest)) =
            bucketLines (List.filter pred rest) := by
          simp [List.filter_cons, hb]
        have h2 : bucketLines (b :: rest) =
            List.map Point.line b.2 ++ bucketLines rest := by
          simp [bucketLines]
        rw [h1, h2]
        exact ih.trans (List.sublist_append_right _ _)

/-- The bucket fold of `process_config` establishes the dedup invariant. -/
theorem process_config_inv (env : Env) (rg : String → List RgMatch)
    (config : Config) (st : PCState)
    (h : config.subclasses.foldlM (fun s sc => processSub env rg sc s)
      { seen := [], buckets := [] } = Except.ok st) : PCInv st := by
  refine foldlM_except_inv PCInv _
    (fun s a s2 hs ha => processSub_inv env rg a s s2 hs ha)
    config.subclasses { seen := [], buckets := [] } st ?_ h
  constructor
  · simp [bucketLines]
  · intro n hn
    simp [bucketLines] at hn

/-- C2: within one config evaluation no two emitted Points share a
line number, and a line is claimed by whichever rule's match is processed
first in declared order: a match whose line is already claimed leaves the
state untouched, while a match on a fresh line installs exactly the point
resolved from the processing rule (its cursor, layer and subclass). -/
theorem process_config_dedup_first_match_wins :
    (∀ (env : Env) (rg : String → List RgMatch) (config : Config)
        (cd : ClassData), process_config env rg config = Except.ok cd →
        (classLines cd).Nodup) ∧
    (∀ (env : Env) (sub : CVal) (rule : Rule) (m : RgMatch) (st : PCState),
        m.line_number ∈ st.seen →
        processMatch env sub rule m st = Except.ok st) ∧
    (∀ (env : Env) (sub : CVal) (rule : Rule) (m : RgMatch) (st : PCState)
        (p : Point), m.line_number ∉ st.seen →
        mkPoint env rule m = Except.ok p →
        processMatch env sub rule m st = Except.ok
          { seen := m.line_number :: st.seen
            buckets := bucketAppend st.buckets (resolvedSubclass sub m) p }) := by
  refine ⟨?_, ?_, ?_⟩
  · intro env rg config cd h
    unfold process_config at h
    cases hst : config.subclasses.foldlM (fun s sc => processSub env rg sc s)
        { seen := [], buckets := [] } with
    | error e => rw [hst] at h; cases h
    | ok st =>
        rw [hst] at h
        cases h
        have hinv := process_config_inv env rg config st hst
        have hmapped : (bucketLines (st.buckets.map
            (fun b => (b.1, sortByLine b.2)))).Nodup :=
          ((bucketLines_map_sort st.buckets).nodup_iff).mpr hinv.1
        exact (bucketLines_filter _ _).nodup hmapped
  · intro env sub rule m st h
    unfold processMatch
    rw [if_pos h]
  · intro env sub rule m st p h hmk
    unfold processMatch
    rw [if_neg h, hmk]

/-- C2 witness: on a config whose two rules both match line 5, the emitted
line list is duplicate-free, a second match on the claimed line is a no-op,
and the first match installs rule A's point. -/
theorem process_config_dedup_first_match_wins_witness :
    process_config envW rgC2 cfgC2 = Except.ok cdC2 ∧
    (classLines cdC2).Nodup ∧
    (5 ∈ (PCState.mk [5] [(PyVal.str "S", [pA])]).seen ∧
      processMatch envW (CVal.lit (PyVal.str "S")) ruleB mAB
        (PCState.mk [5] [(PyVal.str "S", [pA])]) =
        Except.ok (PCState.mk [5] [(PyVal.str "S", [pA])])) ∧
    (5 ∉ (PCState.mk [] []).seen ∧
      mkPoint envW ruleA mAB = Except.ok pA ∧
      processMatch envW (CVal.lit (PyVal.str "S")) ruleA mAB
        (PCState.mk [] []) =
        Except.ok { seen := 5 :: (PCState.mk [] []).seen
                    buckets := bucketAppend (PCState.mk [] []).buckets
                      (resolvedSubclass (CVal.lit (PyVal.str "S")) mAB) pA }) := by
  refine ⟨rfl, ?_, ⟨?_, ?_⟩, ⟨?_, rfl, ?_⟩⟩
  · exact process_config_dedup_first_match_wins.1 envW rgC2 cfgC2 cdC2 rfl
  · decide
  · exact process_config_dedup_first_match_wins.2.1 envW
      (CVal.lit (PyVal.str "S")) ruleB mAB
      (PCState.mk [5] [(PyVal.str "S", [pA])]) (by decide)
  · decide
  · exact process_config_dedup_first_match_wins.2.2 envW
      (CVal.lit (PyVal.str "S")) ruleA mAB (PCState.mk [] []) pA
      (by decide) rfl

/-- C8: in the class data emitted by a config evaluation, every subclass
carries its points sorted by line number ascending. -/
theorem subclass_points_sorted_by_line :
    ∀ (env : Env) (rg : String → List RgMatch) (config : Config)
      (cd : ClassData) (s : PyVal × List Point),
      process_config env rg config = Except.ok cd → s ∈ cd.subclasses →
      (s.2.map Point.line).Sorted (· ≤ ·) := by
  intro env rg config cd s h hs
  unfold process_config at h
  cases hst : config.subclasses.foldlM (fun s sc => processSub env rg sc s)
      { seen := [], buckets := [] } with
  | error e => rw [hst] at h; cases h
  | ok st =>
      rw [hst] at h
      cases h
      have hs2 := List.mem_of_mem_filter hs
      rcases List.mem_map.mp hs2 with ⟨b, hb, rfl⟩
      have hsorted : (sortByLine b.2).Sorted lineLE :=
        List.sorted_insertionSort lineLE b.2
      simpa [List.Sorted, List.pairwise_map, lineLE] using hsorted

/-- C8 witness: the concrete two-rule config's emitted subclass has its
line numbers sorted. -/
theorem subclass_points_sorted_by_line_witness :
    process_config envW rgC2 cfgC2 = Except.ok cdC2 ∧
    (PyVal.str "S", [pA]) ∈ cdC2.subclasses ∧
    (([pA] : List Point).map Point.line).Sorted (· ≤ ·) :=
  ⟨rfl, by decide,
    subclass_points_sorted_by_line envW rgC2 cfgC2 cdC2
      (PyVal.str "S", [pA]) rfl (by decide)⟩

/-- C10: a rule whose cursor is a non-callable falsy literal and which has
no cursor pattern emits the line-number fallback cursor `L<line_number>`. -/
theorem falsy_literal_cursor_line_fallback :
    ∀ (env : Env) (rule : Rule) (m : RgMatch) (p : Point) (v : PyVal),
      rule.cursor = CVal.lit v → pyTruthy v = false →
      rule.cursor_pattern = "" → mkPoint env rule m = Except.ok p →
      p.cursor = "L" ++ toString m.line_number := by
  intro env rule m p v hc hv hp hmk
  unfold mkPoint at hmk
  cases hL : pyInt (resolvedLayer rule m) with
  | none => rw [hL] at hmk; cases hmk
  | some L =>
      rw [hL] at hmk
      cases hmk
      show pyStr (resolvedCursor env rule m) = _
      unfold resolvedCursor
      rw [hc]
      simp [hv, hp, pyStr]

/-- C10 witness: the empty-string literal cursor on line 7 yields `L7`. -/
theorem falsy_literal_cursor_line_fallback_witness :
    ruleC10.cursor = CVal.lit (PyVal.str "") ∧
    pyTruthy (PyVal.str "") = false ∧
    ruleC10.cursor_pattern = "" ∧
    mkPoint envW ruleC10 mC10 =
      Except.ok { cursor := "L7", msg := "E line", line := 7,
                  timestamp := 0, layer := 1 } ∧
    Point.cursor { cursor := "L7", msg := "E line", line := 7,
                   timestamp := 0, layer := 1 } =
      "L" ++ toString mC10.line_number :=
  ⟨rfl, rfl, rfl, rfl,
    falsy_literal_cursor_line_fallback envW ruleC10 mC10
      { cursor := "L7", msg := "E line", line := 7, timestamp := 0,
        layer := 1 } (PyVal.str "") rfl rfl rfl rfl⟩

/-- C5 counterexample: a layer resolver that succeeds but returns the
non-coercible string `abc` makes the whole config evaluation raise (the
`int(layer)` coercion error propagates); the point is not emitted with the
default layer 1, contradicting the claim that no error ever propagates. -/
theorem non_coercible_layer_raises :
    process_config envW rgW cfgC5 =
      Except.error "invalid literal for int()" := rfl

/-- C5 amended: a layer resolver that raises falls back to layer 1 and a
coercible resolved layer is emitted coerced, but a resolved layer value on
which `int()` fails raises an error that propagates out of the
per-point resolution. -/
theorem layer_fallback_and_coercion :
    (∀ (env : Env) (rule : Rule) (m : RgMatch)
        (f : String → RgMatch → Option PyVal),
        rule.layer = CVal.fn f → f m.line_text m = Option.none →
        (mkPoint env rule m).map Point.layer = Except.ok 1) ∧
    (∀ (env : Env) (rule : Rule) (m : RgMatch) (L : Int),
        pyInt (resolvedLayer rule m) = some L →
        (mkPoint env rule m).map Point.layer = Except.ok L) ∧
    (∀ (env : Env) (rule : Rule) (m : RgMatch),
        pyInt (resolvedLayer rule m) = Option.none →
        mkPoint env rule m = Except.error "invalid literal for int()") := by
  refine ⟨?_, ?_, ?_⟩
  · intro env rule m f hf hraise
    have hres : resolvedLayer rule m = PyVal.int 1 := by
      unfold resolvedLayer
      rw [hf]
      simp [resolve_callable, hraise]
    unfold mkPoint
    rw [hres]
    rfl
  · intro env rule m L hL
    unfold mkPoint
    rw [hL]
    rfl
  · intro env rule m hL
    unfold mkPoint
    rw [hL]

/-- C5 amended witness: a raising resolver yields layer 1; the literal
layer 1 is emitted as 1; the non-coercible resolved layer `abc` raises. -/
theorem layer_fallback_and_coercion_witness :
    ruleC5b.layer = CVal.fn (fun _ _ => Option.none) ∧
    (mkPoint envW ruleC5b mAB).map Point.layer = Except.ok 1 ∧
    pyInt (resolvedLayer ruleA mAB) = some 1 ∧
    (mkPoint envW ruleA mAB).map Point.layer = Except.ok 1 ∧
    pyInt (resolvedLayer ruleC5 mAB) = Option.none ∧
    mkPoint envW ruleC5 mAB = Except.error "invalid literal for int()" :=
  ⟨rfl,
    layer_fallback_and_coercion.1 envW ruleC5b mAB
      (fun _ _ => Option.none) rfl rfl,
    rfl,
    layer_fallback_and_coercion.2.1 envW ruleA mAB 1 rfl,
    rfl,
    layer_fallback_and_coercion.2.2 envW ruleC5 mAB rfl⟩

/-- C1 counterexample: the truthy literal cursor `"a b"` (containing a
space) reaches the emitted point verbatim — the config evaluation emits a
cursor outside `^[A-Za-z0-9_.-]{0,50}$`, so cursors are not sanitized
post-resolution in general. -/
theorem literal_cursor_escapes_sanitization :
    process_config envW rgW cfgC1 = Except.ok cdC1 ∧
    pC1.cursor = "a b" ∧
    isSanitizedCursor pC1.cursor = false :=
  ⟨rfl, rfl, rfl⟩

/-- The pattern-extraction path produces strings whose every character lies
in the engine's kept class `[\w\-_.]` and whose length is at most 50 —
sanitization relative to the engine's word class `w`, not to the
specification's ASCII class. -/
theorem extract_output_sanitized (w : Char → Bool) (t : String) :
    (pySlice (sanitizeSub w t) 50).data.length ≤ 50 ∧
    (pySlice (sanitizeSub w t) 50).data.all (wordKeep w) = true := by
  constructor
  · exact List.length_take_le _ _
  · rw [List.all_eq_true]
    intro c hc
    have hc2 : c ∈ t.data.map (fun c => if wordKeep w c then c else '_') :=
      List.take_subset _ _ hc
    rcases List.mem_map.mp hc2 with ⟨a, _, rfl⟩
    by_cases h : wordKeep w a = true
    · simp [h]
    · rw [if_neg h]
      simp [wordKeep]

/-- C1 amended: sanitization applies only to the cursor-pattern extraction
path, and only relative to the regex engine's word class.  A truthy
literal cursor and a successfully computed cursor are resolved verbatim
(then stringified); `extract_cursor` returns its default or a string of at
most 50 characters all drawn from the engine's kept class `[\w\-_.]`; and
because Python's `\w` is Unicode-aware, an extracted cursor can still fall
outside the specification's ASCII language `^[A-Za-z0-9_.-]{0,50}$`: with
`é` a word character, the matched text `Héllo!` extracts to the cursor
`Héllo_`, which the spec regex rejects. -/
theorem cursor_sanitized_only_when_extracted :
    (∀ (env : Env) (rule : Rule) (m : RgMatch) (v : PyVal),
        rule.cursor = CVal.lit v → pyTruthy v = true →
        resolvedCursor env rule m = v) ∧
    (∀ (env : Env) (rule : Rule) (m : RgMatch)
        (f : String → RgMatch → Option PyVal) (v : PyVal),
        rule.cursor = CVal.fn f → f m.line_text m = some v →
        resolvedCursor env rule m = v) ∧
    (∀ (search : String → String → Option String) (w : Char → Bool)
        (line pat d : String),
        extract_cursor search w line pat d = d ∨
        ((extract_cursor search w line pat d).data.length ≤ 50 ∧
          (extract_cursor search w line pat d).data.all (wordKeep w) =
            true)) ∧
    (extract_cursor (fun _ _ => some "Héllo!")
        (fun c => c.isAlpha || c.isDigit || c = '_' || c = 'é')
        "ln" "pp" "" = "Héllo_" ∧
      isSanitizedCursor "Héllo_" = false) := by
  refine ⟨?_, ?_, ?_, rfl, rfl⟩
  · intro env rule m v hc hv
    unfold resolvedCursor
    rw [hc]
    simp [hv]
  · intro env rule m f v hc hf
    unfold resolvedCursor
    rw [hc]
    simp [resolve_callable, hf]
  · intro search w line pat d
    unfold extract_cursor
    by_cases hp : pat ≠ ""
    · rw [if_pos hp]
      cases hs : search pat line with
      | none => exact Or.inl rfl
      | some g => exact Or.inr (extract_output_sanitized w (pyStrip g))
    · rw [if_neg hp]
      exact Or.inl rfl

/-- C1 amended witness: the literal cursor `"a b"` and a computed cursor
`"x y"` are resolved verbatim, and a concrete extraction output is bounded
by 50 and drawn from the engine's kept class. -/
theorem cursor_sanitized_only_when_extracted_witness :
    ruleC1.cursor = CVal.lit (PyVal.str "a b") ∧
    pyTruthy (PyVal.str "a b") = true ∧
    resolvedCursor envW ruleC1 mAB = PyVal.str "a b" ∧
    resolvedCursor envW
      { pattern := "E", cursor := CVal.fn (fun _ _ => some (PyVal.str "x y")),
        cursor_pattern := "", cursor_pfx := "",
        layer := CVal.lit (PyVal.int 1) } mAB = PyVal.str "x y" ∧
    (extract_cursor (fun _ _ => some " He!llo ") envW.wordChar
        "ln" "pp" "" = "" ∨
      ((extract_cursor (fun _ _ => some " He!llo ") envW.wordChar
          "ln" "pp" "").data.length ≤ 50 ∧
        (extract_cursor (fun _ _ => some " He!llo ") envW.wordChar
          "ln" "pp" "").data.all (wordKeep envW.wordChar) = true)) :=
  ⟨rfl, rfl,
    cursor_sanitized_only_when_extracted.1 envW ruleC1 mAB
      (PyVal.str "a b") rfl rfl,
    cursor_sanitized_only_when_extracted.2.1 envW
      { pattern := "E", cursor := CVal.fn (fun _ _ => some (PyVal.str "x y")),
        cursor_pattern := "", cursor_pfx := "",
        layer := CVal.lit (PyVal.int 1) } mAB
      (fun _ _ => some (PyVal.str "x y")) (PyVal.str "x y") rfl rfl,
    cursor_sanitized_only_when_extracted.2.2.1
      (fun _ _ => some " He!llo ") envW.wordChar "ln" "pp" ""⟩

/-- Running hooks over an appended list runs the second part from the first
part's final state. -/
theorem runHooks_append (a b : List Hook) (st : JResult × List String) :
    runHooks (a ++ b) st = runHooks b (runHooks a st) :=
  List.foldl_append _ _ _ _

/-- Unfolding one hook step of `runHooks`. -/
theorem runHooks_cons (h : Hook) (hooks : List Hook)
    (st : JResult × List String) :
    runHooks (h :: hooks) st = runHooks hooks
      (match h.2 st.1 with
        | some r2 => (r2, st.2)
        | Option.none => (st.1, st.2 ++ [hookWarning h.1])) := rfl

/-- C3: when a post-processing hook raises, the result carried into the
remaining hooks (and hence to the final output) is exactly the result as it
was before that hook, a warning naming the hook's config is appended to the
log, and all later hooks still run. -/
theorem hook_failure_keeps_result_and_continues :
    ∀ (pre post : List Hook) (src : String)
      (f : JResult → Option JResult) (r : JResult) (w : List String),
      f (runHooks pre (r, w)).1 = Option.none →
      runHooks (pre ++ (src, f) :: post) (r, w) =
        runHooks post ((runHooks pre (r, w)).1,
          (runHooks pre (r, w)).2 ++ [hookWarning src]) := by
  intro pre post src f r w hfail
  rw [runHooks_append, runHooks_cons]
  congr 1
  rw [show ((src, f) : Hook).2 = f from rfl, hfail]

/-- C3 witness: with a failing hook followed by a live hook, the failing
hook leaves the result unchanged, logs its warning, and the later hook
still runs. -/
theorem hook_failure_keeps_result_and_continues_witness :
    (fun _ => Option.none : JResult → Option JResult)
        (runHooks [] (jrW, [])).1 = Option.none ∧
    runHooks ([] ++ ("a.py", fun _ => Option.none) :: [hookOk]) (jrW, []) =
      runHooks [hookOk] ((runHooks [] (jrW, [])).1,
        (runHooks [] (jrW, [])).2 ++ [hookWarning "a.py"]) :=
  ⟨rfl,
    hook_failure_keeps_result_and_continues [] [hookOk] "a.py"
      (fun _ => Option.none) jrW [] rfl⟩

/-- C4 counterexample: with a missing config followed by a loadable config,
the run aborts with the load error — the failing config is not skipped and
the loadable config's output is never produced, although processing the
loadable config alone succeeds. -/
theorem config_load_failure_aborts_run :
    processAllConfigs envW rgW
        [ConfigSource.missing "bad.py",
         ConfigSource.loaded "good.py" cfgC1] =
      Except.error ("Config file not found: bad.py") ∧
    processAllConfigs envW rgW [ConfigSource.loaded "good.py" cfgC1] =
      Except.ok [cdC1] :=
  ⟨rfl, rfl⟩

/-- C4 amended: a config source that fails to load or parse is fatal: every
failure branch of `load_config` exits the run with an error, so the
remaining configs are not processed. -/
theorem config_load_failure_fatal :
    ∀ (env : Env) (rg : String → List RgMatch) (p : String)
      (rest : List ConfigSource),
      processAllConfigs env rg (ConfigSource.missing p :: rest) =
        Except.error ("Config file not found: " ++ p) ∧
      processAllConfigs env rg (ConfigSource.notPy p :: rest) =
        Except.error ("Only .py config files are supported: " ++ p) ∧
      processAllConfigs env rg (ConfigSource.execFails p :: rest) =
        Except.error ("Failed to load config " ++ p) := by
  intro env rg p rest
  exact ⟨rfl, rfl, rfl⟩

/-- C7 counterexample: an adapter invocation that completes with the error
exit status 2 (e.g. an invalid pattern) and empty output returns an empty
match list as a normal result — the run is not aborted, because
`run_rg_json` never inspects the exit status. -/
theorem rg_error_exit_not_fatal :
    run_rg_json (RgProcResult.completed 2 []) = Except.ok [] := rfl

/-- C7 amended: a missing pattern-search executable aborts the run with a
fatal error and a completed invocation with no match events yields the
empty list as a normal outcome, but the exit status of a completed
invocation is never inspected — whatever match events its stdout carries
are returned — and any other invocation error yields an empty list with a
warning. -/
theorem rg_invocation_outcomes :
    run_rg_json RgProcResult.notFound =
      Except.error "ripgrep not found" ∧
    (∀ (code : Nat) (out : List RgEvent),
        run_rg_json (RgProcResult.completed code out) =
          Except.ok (parseRgEvents out)) ∧
    run_rg_json RgProcResult.otherError = Except.ok [] :=
  ⟨rfl, fun _ _ => rfl, rfl⟩

/-- C9: the series are the groups of points keyed by
`(subclassname, layer)`, emitted in the order of keys sorted by subclass
name then layer, each coloured by the palette entry
`(layer - 1) mod 20`, which repeats every 20 layers. -/
theorem series_sorted_keys_and_palette :
    ∀ (dpts : List DPoint),
      ((buildSeries dpts).map Prod.fst).Sorted keyLE ∧
      (∀ (k : String × Int) (s : List DPoint) (c : String),
          (k, (s, c)) ∈ buildSeries dpts →
          s = dpts.filter (fun d => decide (skey d = k)) ∧
          c = get_layer_color k.2) ∧
      (∀ L : Int, get_layer_color (L + 20) = get_layer_color L) := by
  intro dpts
  refine ⟨?_, ?_, ?_⟩
  · have h1 : ∀ l : List (String × Int),
        (l.map (fun k => (k,
          ((alookup k (groupByKey skey dpts)).getD [] : List DPoint),
          get_layer_color k.2))).map Prod.fst = l := by
      intro l
      induction l with
      | nil => rfl
      | cons x xs ih => simp [ih]
    unfold buildSeries
    rw [h1]
    unfold seriesKeys
    exact List.sorted_insertionSort keyLE _
  · intro k s c hmem
    unfold buildSeries at hmem
    rcases List.mem_map.mp hmem with ⟨k0, hk0, heq⟩
    injection heq with hk h2
    injection h2 with hs hc
    subst hk
    constructor
    · rw [← hs]
      exact alookup_groupByKey skey dpts k0
    · exact hc.symm
  · intro L
    unfold get_layer_color
    have h : (L + 20 - 1).emod 20 = (L - 1).emod 20 := by
      show (L + 20 - 1) % 20 = (L - 1) % 20
      omega
    rw [h]

/-- C9 witness: on a concrete display-point list the series for key
`(s, 1)` is the filter on that key and carries palette colour 0. -/
theorem series_sorted_keys_and_palette_witness :
    ((("s" : String), (1 : Int)), ([dpS], "#667eea")) ∈ buildSeries dptsC9 ∧
    [dpS] = dptsC9.filter (fun d => decide (skey d = ("s", 1))) ∧
    "#667eea" = get_layer_color 1 := by
  have hm : ((("s" : String), (1 : Int)), ([dpS], "#667eea")) ∈
      buildSeries dptsC9 := by
    rw [show buildSeries dptsC9 =
      [(("s", 1), ([dpS], "#667eea")), (("t", 1), ([dpT], "#667eea"))]
      from rfl]
    exact List.mem_cons_self _ _
  exact ⟨hm,
    (series_sorted_keys_and_palette dptsC9).2.1 ("s", 1) [dpS] "#667eea" hm⟩

/-- C6: every collision group of the layout — the points sharing one
`(timestamp_ms, category_index)` key after the canonical sort — is
homogeneous in its key and listed in tie-break order; a group of `n > 1`
points receives `n` strictly increasing (hence pairwise distinct) display
timestamps lying in `[timestamp - 0.45, timestamp + 0.45]` ms, assigned
along the tie-break order, while a singleton group keeps its own timestamp
verbatim. -/
theorem collision_spread_bounds :
    ∀ (pts : List LPoint) (k : Int × Nat) (g : List LPoint),
      (k, g) ∈ layoutGroups pts →
      (∀ p ∈ g, p.timestamp_ms = k.1 ∧ p.category_index = k.2) ∧
      g.Sorted tieLE ∧
      (assignDisplay k g).map DPoint.point = g ∧
      (1 < g.length →
        ((assignDisplay k g).map DPoint.display_timestamp_ms).Sorted
          (· < ·) ∧
        ∀ d ∈ assignDisplay k g,
          (k.1 : ℚ) - 9 / 20 ≤ d.display_timestamp_ms ∧
          d.display_timestamp_ms ≤ (k.1 : ℚ) + 9 / 20) ∧
      (g.length = 1 →
        ∀ d ∈ assignDisplay k g,
          d.display_timestamp_ms = (d.point.timestamp_ms : ℚ)) := by
  intro pts k g hmem
  have hg : g = (sortAllPoints pts).filter (fun p => decide (gkey p = k)) :=
    mem_groupByKey_eq_filter gkey (sortAllPoints pts) k g hmem
  have hhom : ∀ p ∈ g, p.timestamp_ms = k.1 ∧ p.category_index = k.2 := by
    intro p hp
    rw [hg] at hp
    have h3 : gkey p = k := of_decide_eq_true (List.mem_filter.mp hp).2
    unfold gkey at h3
    exact ⟨congrArg Prod.fst h3, congrArg Prod.snd h3⟩
  have hslen : ∀ i, i < g.length →
      ((List.range g.length).zip g).length = g.length := by
    intro i hi
    simp [List.length_zip, List.length_range]
  have hspos : 1 < g.length →
      (0 : ℚ) < 9 / 10 / ((g.length : ℚ) - 1) := by
    intro hn
    apply div_pos (by norm_num)
    have h1 : (1 : ℚ) < (g.length : ℚ) := by exact_mod_cast hn
    linarith
  refine ⟨hhom, ?_, ?_, ?_, ?_⟩
  · rw [hg]
    exact (List.sorted_insertionSort tieLE pts).filter _
  · unfold assignDisplay
    by_cases hn : 1 < g.length
    · rw [if_pos hn, List.map_map]
      exact List.map_snd_zip _ _ (by simp [List.length_range])
    · rw [if_neg hn, List.map_map]
      exact List.map_id g
  · intro hn
    constructor
    · unfold assignDisplay
      rw [if_pos hn, List.map_map]
      refine List.pairwise_iff_getElem.mpr ?_
      intro i j hi hj hij
      simp only [List.length_map, List.length_zip, List.length_range,
        min_self] at hi hj
      simp only [List.getElem_map, List.getElem_zip, List.getElem_range,
        Function.comp_apply]
      have hs := hspos hn
      have hij2 : (i : ℚ) < (j : ℚ) := by exact_mod_cast hij
      have h4 := mul_lt_mul_of_pos_right hij2 hs
      linarith
    · intro d hd
      unfold assignDisplay at hd
      rw [if_pos hn] at hd
      rcases List.mem_iff_getElem.mp hd with ⟨i, hi, hdi⟩
      simp only [List.length_map, List.length_zip, List.length_range,
        min_self] at hi
      rw [List.getElem_map] at hdi
      rw [List.getElem_zip] at hdi
      subst hdi
      simp only [List.getElem_range]
      have hs := hspos hn
      have hiq : (0 : ℚ) ≤ (i : ℚ) * (9 / 10 / ((g.length : ℚ) - 1)) :=
        mul_nonneg (by positivity) hs.le
      have hne : ((g.length : ℚ) - 1) ≠ 0 := by
        have h1 : (1 : ℚ) < (g.length : ℚ) := by exact_mod_cast hn
        intro h
        linarith
      have hle : (i : ℚ) ≤ (g.length : ℚ) - 1 := by
        have h1 : (i : ℚ) + 1 ≤ (g.length : ℚ) := by
          exact_mod_cast Nat.succ_le_of_lt hi
        linarith
      have h2 : (i : ℚ) * (9 / 10 / ((g.length : ℚ) - 1)) ≤
          ((g.length : ℚ) - 1) * (9 / 10 / ((g.length : ℚ) - 1)) :=
        mul_le_mul_of_nonneg_right hle hs.le
      have h3 : ((g.length : ℚ) - 1) * (9 / 10 / ((g.length : ℚ) - 1)) =
          9 / 10 := mul_div_cancel₀ _ hne
      constructor
      · linarith
      · linarith
  · intro h1
    unfold assignDisplay
    rw [if_neg (by omega)]
    intro d hd
    rcases List.mem_map.mp hd with ⟨p, hp, rfl⟩
    rfl

/-- C6 witness: the three-way collision at timestamp 5 ms, category 0, is
grouped in line order and spread per the theorem. -/
theorem collision_spread_bounds_witness :
    (((5 : Int), (0 : Nat)), [lp1, lp2, lp3]) ∈ layoutGroups ptsC6 ∧
    ((∀ p ∈ [lp1, lp2, lp3], p.timestamp_ms = (5 : Int) ∧
        p.category_index = 0) ∧
      ([lp1, lp2, lp3] : List LPoint).Sorted tieLE ∧
      (assignDisplay (5, 0) [lp1, lp2, lp3]).map DPoint.point =
        [lp1, lp2, lp3] ∧
      (1 < ([lp1, lp2, lp3] : List LPoint).length →
        ((assignDisplay (5, 0) [lp1, lp2, lp3]).map
          DPoint.display_timestamp_ms).Sorted (· < ·) ∧
        ∀ d ∈ assignDisplay (5, 0) [lp1, lp2, lp3],
          ((5 : Int) : ℚ) - 9 / 20 ≤ d.display_timestamp_ms ∧
          d.display_timestamp_ms ≤ ((5 : Int) : ℚ) + 9 / 20) ∧
      (([lp1, lp2, lp3] : List LPoint).length = 1 →
        ∀ d ∈ assignDisplay (5, 0) [lp1, lp2, lp3],
          d.display_timestamp_ms = (d.point.timestamp_ms : ℚ))) :=
  ⟨by decide,
    collision_spread_bounds ptsC6 (5, 0) [lp1, lp2, lp3] (by decide)⟩
